import Mathlib

/-!
Verification of the leader_graph data pipeline against its specification.

Each Python function under scrutiny is shallowly embedded as an executable
Lean definition that mirrors the source line by line; theorems then settle
the specification claims about those definitions.
-/

/-! ## String utilities shared by the embeddings

Python substring tests (`pat in s`), lower-casing and UTF-8 encoding are
modelled over `List Char` / `String`. -/

/-- `isPrefixChars p s` holds when the char list `p` starts the char list `s`
(Python prefix test used to implement substring search). -/
def isPrefixChars : List Char → List Char → Bool
  | [], _ => true
  | _ :: _, [] => false
  | a :: as, b :: bs => a = b && isPrefixChars as bs

/-- `hasSubChars p s` is Python's `p in s` on char lists: `p` occurs
contiguously somewhere in `s`. -/
def hasSubChars (p : List Char) : List Char → Bool
  | [] => isPrefixChars p []
  | c :: cs => isPrefixChars p (c :: cs) || hasSubChars p cs

/-- Python's `pat in s` on strings. -/
def strContains (s pat : String) : Bool :=
  hasSubChars pat.data s.data

/-- ASCII lower-casing of a character, as CPython applies to ASCII letters. -/
def pyLowerChar (c : Char) : Char :=
  if 'A' ≤ c ∧ c ≤ 'Z' then Char.ofNat (c.toNat + 32) else c

/-- Python's `s.lower()` restricted to ASCII letters. -/
def pyLower (s : String) : String :=
  String.mk (s.data.map pyLowerChar)

theorem isPrefixChars_iff (p s : List Char) :
    isPrefixChars p s = true ↔ ∃ t, s = p ++ t := by
  induction p generalizing s with
  | nil => simp [isPrefixChars]
  | cons a as ih =>
    cases s with
    | nil =>
      simp [isPrefixChars]
    | cons b bs =>
      simp only [isPrefixChars, Bool.and_eq_true, decide_eq_true_eq, ih, List.cons_append,
        List.cons.injEq]
      constructor
      · rintro ⟨rfl, t, rfl⟩
        exact ⟨t, rfl, rfl⟩
      · rintro ⟨t, rfl, rfl⟩
        exact ⟨rfl, t, rfl⟩

theorem hasSubChars_iff (p s : List Char) :
    hasSubChars p s = true ↔ ∃ u v, s = u ++ p ++ v := by
  induction s with
  | nil =>
    simp only [hasSubChars, isPrefixChars_iff]
    constructor
    · rintro ⟨t, ht⟩
      exact ⟨[], t, by simpa using ht⟩
    · rintro ⟨u, v, huv⟩
      have hu : u = [] := by
        cases u with
        | nil => rfl
        | cons x xs => simp at huv
      subst hu
      exact ⟨v, by simpa using huv⟩
  | cons c cs ih =>
    simp only [hasSubChars, Bool.or_eq_true, isPrefixChars_iff, ih]
    constructor
    · rintro (⟨t, ht⟩ | ⟨u, v, huv⟩)
      · exact ⟨[], t, by simpa using ht⟩
      · exact ⟨c :: u, v, by simp [huv]⟩
    · rintro ⟨u, v, huv⟩
      cases u with
      | nil =>
        exact Or.inl ⟨v, by simpa using huv⟩
      | cons x xs =>
        simp only [List.cons_append, List.cons.injEq] at huv
        exact Or.inr ⟨xs, v, huv.2⟩

theorem strContains_trans (s a b : String)
    (hab : strContains a b = true) (hsa : strContains s a = true) :
    strContains s b = true := by
  simp only [strContains, hasSubChars_iff] at *
  obtain ⟨u, v, huv⟩ := hab
  obtain ⟨x, y, hxy⟩ := hsa
  exact ⟨x ++ u, v ++ y, by simp [hxy, huv]⟩

/-! ## C1 — portrait image URL filter

Embedding of `LeaderImageExtractor._is_valid_image_url`
(src/leader/update_leader_img_url.py). -/

/-- The four invalid substrings rejected first. -/
def invalid_patterns : List String :=
  ["logo-baike.svg", "baike-react/common", "icon", "/img/"]

/-- The two substrings accepted as valid Baidu-Baike image URLs. -/
def valid_patterns : List String :=
  ["bkimg.cdn.bcebos.com/pic/", "/pic/"]

/-- Recognised image extensions checked in the final branch. -/
def image_extensions : List String :=
  [".jpg", ".jpeg", ".png"]

/-- `LeaderImageExtractor._is_valid_image_url`: reject on any invalid
substring, accept on any valid substring, then a length test, an
extension/resize-parameter test, and finally an unconditional `return False`. -/
def is_valid_image_url (url : String) : Bool :=
  if invalid_patterns.any (fun p => strContains url p) then false
  else if valid_patterns.any (fun p => strContains url p) then true
  else if url.length < 30 then false
  else if !(image_extensions.any fun e => strContains (pyLower url) e)
          && !(strContains url "x-bce-process") then false
  else false

/-- C1: for URLs free of the four invalid substrings, acceptance is exactly
the presence of `bkimg.cdn.bcebos.com/pic/` or `/pic/`; any URL reaching the
final extension/resize branch (length ≥ 30, no `/pic/`) is rejected. -/
theorem c1_image_url_filter (url : String)
    (h : ∀ p ∈ invalid_patterns, strContains url p = false) :
    (is_valid_image_url url = true ↔
      (strContains url "bkimg.cdn.bcebos.com/pic/" = true ∨
        strContains url "/pic/" = true)) ∧
    (strContains url "/pic/" = false → 30 ≤ url.length →
      is_valid_image_url url = false) := by
  have hinv : invalid_patterns.any (fun p => strContains url p) = false := by
    simp only [List.any_eq_false]
    intro p hp
    simp [h p hp]
  have hrest : ∀ hA : strContains url "bkimg.cdn.bcebos.com/pic/" = false,
      ∀ hB : strContains url "/pic/" = false, is_valid_image_url url = false := by
    intro hA hB
    simp only [is_valid_image_url, hinv, Bool.false_eq_true, if_false, valid_patterns,
      List.any_cons, List.any_nil, hA, hB, Bool.or_self, Bool.or_false]
    split
    · rfl
    · split <;> rfl
  constructor
  · constructor
    · intro hvalid
      by_cases hA : strContains url "bkimg.cdn.bcebos.com/pic/" = true
      · exact Or.inl hA
      · by_cases hB : strContains url "/pic/" = true
        · exact Or.inr hB
        · rw [hrest (Bool.not_eq_true _ ▸ hA) (Bool.not_eq_true _ ▸ hB)] at hvalid
          exact absurd hvalid (by simp)
    · intro hv
      have hany : valid_patterns.any (fun p => strContains url p) = true := by
        rcases hv with hA | hB
        · simp [valid_patterns, hA]
        · simp [valid_patterns, hB]
      simp [is_valid_image_url, hinv, hany]
  · intro hpic _
    have hbk : strContains url "bkimg.cdn.bcebos.com/pic/" = false := by
      by_contra hne
      have hne2 : strContains url "bkimg.cdn.bcebos.com/pic/" = true :=
        Bool.not_eq_false _ ▸ hne
      have := strContains_trans url "bkimg.cdn.bcebos.com/pic/" "/pic/" (by decide) hne2
      simp [this] at hpic
    exact hrest hbk hpic

/-- C1 witness: a concrete URL with none of the invalid substrings,
containing `/pic/`, is accepted. -/
theorem c1_image_url_filter_witness :
    is_valid_image_url "https://bkimg.cdn.bcebos.com/pic/abcdef" = true := by
  have h := c1_image_url_filter "https://bkimg.cdn.bcebos.com/pic/abcdef" (by decide)
  exact h.1.mpr (Or.inr (by decide))

/-! ## C5 — candidate leader name filter

Embedding of `LeaderExtractor.is_valid_leader_name`
(src/leader/update_c_org_leader_info.py). -/

/-- The blocklist of administrative/organizational vocabulary terms. -/
def non_person_keywords : List String :=
  ["本人编辑", "四人帮", "秘书长", "上海市", "双重领导",
   "纪律检查", "行政监察", "北京市", "山西省", "浙江省",
   "制度建设", "合署办公", "组织架构", "民主党派", "人民团体",
   "少数民族", "台湾同胞", "港澳同胞", "侨胞", "纪检监察",
   "浦东新区", "党组书记", "直属机关", "办事机构", "机构改革",
   "市直机关", "反恐专员", "北京海关", "民办高校", "提案",
   "稿件", "起草", "讲话稿", "会议纪要", "承办", "纪检组长",
   "职数", "事业单位", "厅长", "蒙古族", "行政编制", "副厅级",
   "正处级", "民族宗教", "主任", "督查室", "副处级", "省长助理",
   "国防动员", "党组成员", "主席", "长沙市", "世纪", "国防",
   "元帅", "中南地区", "北京", "高中", "苏联", "中共中央",
   "江西", "广东", "无线电", "总工程师", "衡阳", "书记",
   "公安", "春节", "坑口", "重铀酸铵", "二机部", "党委书记",
   "吉林省", "巡视员", "正厅级", "国务院", "司令员", "中央委员",
   "藏族", "满族", "苗族", "维吾尔族", "回族", "监事会", "监察官",
   "滨海新区", "地源热泵"]

/-- `LeaderExtractor.is_valid_leader_name`: empty names are rejected; names
longer than 4 characters are accepted only when they contain a middle dot;
otherwise the blocklist decides. -/
def is_valid_leader_name (name : String) : Bool :=
  if name = "" then false
  else if name.length = 0 ∨ name.length > 4 then
    strContains name "•" || strContains name "·"
  else
    !(non_person_keywords.any (fun k => strContains name k))

/-- C5 counterexample: the claim asserts every dot-containing candidate is
accepted, but the code rejects the 3-character candidate `·主任` because the
middle-dot branch is only reached for names longer than 4 characters. -/
theorem c5_name_filter_counterexample :
    ¬ (is_valid_leader_name "·主任" = true ↔
        (strContains "·主任" "•" = true ∨ strContains "·主任" "·" = true ∨
          (1 ≤ ("·主任" : String).length ∧ ("·主任" : String).length ≤ 4 ∧
            ∀ k ∈ non_person_keywords, strContains "·主任" k = false))) := by
  decide

/-- C5 amended: a candidate is accepted iff it is longer than 4 characters and
contains a middle-dot/bullet, or its length is between 1 and 4 and it contains
no blocklisted term; the four cited examples behave as claimed. -/
theorem c5_name_filter_amended :
    (∀ name : String, is_valid_leader_name name = true ↔
      ((name.length > 4 ∧
          (strContains name "•" = true ∨ strContains name "·" = true)) ∨
        (1 ≤ name.length ∧ name.length ≤ 4 ∧
          ∀ k ∈ non_person_keywords, strContains name k = false))) ∧
    is_valid_leader_name "张伟" = true ∧
    is_valid_leader_name "秘书长" = false ∧
    is_valid_leader_name "玛丽·居里" = true ∧
    is_valid_leader_name "浦东新区" = false := by
  refine ⟨?_, by decide, by decide, by decide, by decide⟩
  intro name
  by_cases hn : name = ""
  · subst hn
    simp [is_valid_leader_name]
  · have hlen0 : name.length ≠ 0 := by
      intro h0
      apply hn
      cases name with
      | mk l =>
        cases l with
        | nil => rfl
        | cons c cs => simp [String.length] at h0
    by_cases hlen : name.length > 4
    · rw [is_valid_leader_name, if_neg hn,
        if_pos (show name.length = 0 ∨ name.length > 4 from Or.inr hlen)]
      simp only [Bool.or_eq_true]
      constructor
      · intro h
        exact Or.inl ⟨hlen, h⟩
      · rintro (⟨_, h⟩ | ⟨_, h4, _⟩)
        · exact h
        · omega
    · have hcond : ¬ (name.length = 0 ∨ name.length > 4) := by
        push_neg
        exact ⟨hlen0, by omega⟩
      rw [is_valid_leader_name, if_neg hn, if_neg hcond]
      simp only [Bool.not_eq_true', List.any_eq_false, Bool.not_eq_true]
      constructor
      · intro h
        exact Or.inr ⟨by omega, by omega, h⟩
      · rintro (⟨h4, _⟩ | ⟨_, _, h⟩)
        · omega
        · exact h

/-! ## C2 — `BaseEvent` validation (src/src/schema.py)

The pydantic model is embedded as a record of raw field values plus a
validation function that raises (returns `.error`) exactly where the
field/model validators raise. -/

/-- `EventType` enumeration. -/
inductive EventType where
  | study
  | work
deriving DecidableEq

/-- Raw field values handed to the `BaseEvent` constructor. -/
structure BaseEventInput where
  eventType : EventType
  startYear : Option Int
  startMonth : Option Int
  isEnd : Bool
  hasEndDate : Bool
  endYear : Option Int
  endMonth : Option Int
  school : Option String
  department : Option String
  major : Option String
  degree : Option String
  place : Option String
  position : Option String

/-- `validate_year`: a present year must lie in [1900, 2100]. -/
def checkYear (fieldName : String) (v : Option Int) : Except String Unit :=
  match v with
  | none => .ok ()
  | some y =>
    if y < 1900 ∨ y > 2100 then .error (fieldName ++ "必须在1900-2100之间")
    else .ok ()

/-- `validate_month`: a present month must lie in [1, 12]. -/
def checkMonth (fieldName : String) (v : Option Int) : Except String Unit :=
  match v with
  | none => .ok ()
  | some m =>
    if m < 1 ∨ m > 12 then .error (fieldName ++ "必须在1-12之间")
    else .ok ()

/-- `validate_end_date`: when `isEnd` and `hasEndDate` hold, `endYear` is
required. -/
def checkEndDate (e : BaseEventInput) : Except String Unit :=
  if e.isEnd ∧ e.hasEndDate ∧ e.endYear = none then
    .error "当isEnd和hasEndDate都为true时，endYear是必需的"
  else .ok ()

/-- `validate_study_event`: study events need `school` and must not carry
`place` or `position`. -/
def checkStudyEvent (e : BaseEventInput) : Except String Unit :=
  if e.eventType = EventType.study then
    if e.school = none then .error "学习经历必须包含school字段"
    else if e.place ≠ none then .error "学习经历的place字段必须为null"
    else if e.position ≠ none then .error "学习经历的position字段必须为null"
    else .ok ()
  else .ok ()

/-- `validate_work_event`: work events need `place` and `position` and must
not carry any study-only field. -/
def checkWorkEvent (e : BaseEventInput) : Except String Unit :=
  if e.eventType = EventType.work then
    if e.place = none then .error "工作经历必须包含place字段"
    else if e.position = none then .error "工作经历必须包含position字段"
    else if e.school ≠ none then .error "工作经历的school字段必须为null"
    else if e.major ≠ none then .error "工作经历的major字段必须为null"
    else if e.degree ≠ none then .error "工作经历的degree字段必须为null"
    else if e.department ≠ none then .error "工作经历的department字段必须为null"
    else .ok ()
  else .ok ()

/-- Sequencing of validators: the first raised error aborts construction. -/
def seqE (a : Except String Unit) (b : Except String BaseEventInput) :
    Except String BaseEventInput :=
  match a with
  | .error msg => .error msg
  | .ok _ => b

/-- Constructing a `BaseEvent` runs the field validators and then the three
model validators, raising on the first violation. -/
def validateBaseEvent (e : BaseEventInput) : Except String BaseEventInput :=
  seqE (checkYear "startYear" e.startYear)
    (seqE (checkYear "endYear" e.endYear)
      (seqE (checkMonth "startMonth" e.startMonth)
        (seqE (checkMonth "endMonth" e.endMonth)
          (seqE (checkEndDate e)
            (seqE (checkStudyEvent e)
              (seqE (checkWorkEvent e) (.ok e)))))))

/-- Whether an `Except` result is a success. -/
def isOkE (a : Except String BaseEventInput) : Bool :=
  match a with
  | .ok _ => true
  | .error _ => false

/-- The claim's list of violation conditions, written from the spec text. -/
def specViolation (e : BaseEventInput) : Prop :=
  (∃ y, (e.startYear = some y ∨ e.endYear = some y) ∧ (y < 1900 ∨ y > 2100)) ∨
  (∃ m, (e.startMonth = some m ∨ e.endMonth = some m) ∧ (m < 1 ∨ m > 12)) ∨
  (e.isEnd = true ∧ e.hasEndDate = true ∧ e.endYear = none) ∨
  (e.eventType = EventType.study ∧
    (e.school = none ∨ e.place ≠ none ∨ e.position ≠ none)) ∨
  (e.eventType = EventType.work ∧
    (e.place = none ∨ e.position = none ∨ e.school ≠ none ∨
      e.department ≠ none ∨ e.major ≠ none ∨ e.degree ≠ none))

theorem isOkE_seqE (a : Except String Unit) (b : Except String BaseEventInput) :
    isOkE (seqE a b) = true ↔ (a = .ok () ∧ isOkE b = true) := by
  cases a with
  | ok u => cases u; simp [seqE]
  | error msg => simp [seqE, isOkE]

theorem checkYear_ok (fieldName : String) (v : Option Int) :
    checkYear fieldName v = .ok () ↔ ∀ y, v = some y → 1900 ≤ y ∧ y ≤ 2100 := by
  cases v with
  | none => simp [checkYear]
  | some y =>
    simp only [checkYear, Option.some.injEq]
    split
    · constructor
      · intro hc
        exact Except.noConfusion hc
      · intro hall
        have := hall y rfl
        omega
    · constructor
      · intro _ z hz
        subst hz
        omega
      · intro _
        rfl

theorem checkMonth_ok (fieldName : String) (v : Option Int) :
    checkMonth fieldName v = .ok () ↔ ∀ m, v = some m → 1 ≤ m ∧ m ≤ 12 := by
  cases v with
  | none => simp [checkMonth]
  | some m =>
    simp only [checkMonth, Option.some.injEq]
    split
    · constructor
      · intro hc
        exact Except.noConfusion hc
      · intro hall
        have := hall m rfl
        omega
    · constructor
      · intro _ z hz
        subst hz
        omega
      · intro _
        rfl

theorem checkEndDate_ok (e : BaseEventInput) :
    checkEndDate e = .ok () ↔
      ¬ (e.isEnd = true ∧ e.hasEndDate = true ∧ e.endYear = none) := by
  unfold checkEndDate
  split
  · rename_i h
    exact ⟨fun hc => Except.noConfusion hc, fun hn => absurd h hn⟩
  · rename_i h
    exact ⟨fun _ => h, fun _ => rfl⟩

theorem checkStudyEvent_ok (e : BaseEventInput) :
    checkStudyEvent e = .ok () ↔
      ¬ (e.eventType = EventType.study ∧
          (e.school = none ∨ e.place ≠ none ∨ e.position ≠ none)) := by
  unfold checkStudyEvent
  by_cases ht : e.eventType = EventType.study
  · rw [if_pos ht]
    by_cases hs : e.school = none
    · rw [if_pos hs]
      exact ⟨fun hc => Except.noConfusion hc, fun hn => absurd ⟨ht, Or.inl hs⟩ hn⟩
    · rw [if_neg hs]
      by_cases hp : e.place ≠ none
      · rw [if_pos hp]
        exact ⟨fun hc => Except.noConfusion hc,
          fun hn => absurd ⟨ht, Or.inr (Or.inl hp)⟩ hn⟩
      · rw [if_neg hp]
        by_cases hq : e.position ≠ none
        · rw [if_pos hq]
          exact ⟨fun hc => Except.noConfusion hc,
            fun hn => absurd ⟨ht, Or.inr (Or.inr hq)⟩ hn⟩
        · rw [if_neg hq]
          constructor
          · intro _ hx
            rcases hx with ⟨-, h | h | h⟩
            exacts [hs h, hp h, hq h]
          · intro _
            rfl
  · rw [if_neg ht]
    exact ⟨fun _ hn => ht hn.1, fun _ => rfl⟩

theorem checkWorkEvent_ok (e : BaseEventInput) :
    checkWorkEvent e = .ok () ↔
      ¬ (e.eventType = EventType.work ∧
          (e.place = none ∨ e.position = none ∨ e.school ≠ none ∨
            e.department ≠ none ∨ e.major ≠ none ∨ e.degree ≠ none)) := by
  unfold checkWorkEvent
  by_cases ht : e.eventType = EventType.work
  · rw [if_pos ht]
    by_cases h1 : e.place = none
    · rw [if_pos h1]
      exact ⟨fun hc => Except.noConfusion hc, fun hn => absurd ⟨ht, Or.inl h1⟩ hn⟩
    · rw [if_neg h1]
      by_cases h2 : e.position = none
      · rw [if_pos h2]
        exact ⟨fun hc => Except.noConfusion hc,
          fun hn => absurd ⟨ht, Or.inr (Or.inl h2)⟩ hn⟩
      · rw [if_neg h2]
        by_cases h3 : e.school ≠ none
        · rw [if_pos h3]
          exact ⟨fun hc => Except.noConfusion hc,
            fun hn => absurd ⟨ht, Or.inr (Or.inr (Or.inl h3))⟩ hn⟩
        · rw [if_neg h3]
          by_cases h4 : e.major ≠ none
          · rw [if_pos h4]
            exact ⟨fun hc => Except.noConfusion hc,
              fun hn => absurd ⟨ht, Or.inr (Or.inr (Or.inr (Or.inr (Or.inl h4))))⟩ hn⟩
          · rw [if_neg h4]
            by_cases h5 : e.degree ≠ none
            · rw [if_pos h5]
              exact ⟨fun hc => Except.noConfusion hc,
                fun hn =>
                  absurd ⟨ht, Or.inr (Or.inr (Or.inr (Or.inr (Or.inr h5))))⟩ hn⟩
            · rw [if_neg h5]
              by_cases h6 : e.department ≠ none
              · rw [if_pos h6]
                exact ⟨fun hc => Except.noConfusion hc,
                  fun hn => absurd ⟨ht, Or.inr (Or.inr (Or.inr (Or.inl h6)))⟩ hn⟩
              · rw [if_neg h6]
                constructor
                · intro _ hx
                  rcases hx with ⟨-, h | h | h | h | h | h⟩
                  exacts [h1 h, h2 h, h3 h, h6 h, h4 h, h5 h]
                · intro _
                  rfl
  · rw [if_neg ht]
    exact ⟨fun _ hn => ht hn.1, fun _ => rfl⟩

/-- C2: constructing a `BaseEvent` raises a validation error iff at least one
of the year/month-range, end-date, study or work rules is violated, and
succeeds otherwise. -/
theorem c2_base_event_validation (e : BaseEventInput) :
    isOkE (validateBaseEvent e) = true ↔ ¬ specViolation e := by
  unfold validateBaseEvent
  simp only [isOkE_seqE, checkYear_ok, checkMonth_ok, checkEndDate_ok,
    checkStudyEvent_ok, checkWorkEvent_ok,
    show isOkE (Except.ok e) = true from rfl, and_true]
  unfold specViolation
  constructor
  · rintro ⟨h1, h2, h3, h4, h5, h6, h7⟩ viol
    rcases viol with ⟨y, hy, hr⟩ | ⟨m, hm, hr⟩ | h | h | h
    · rcases hy with hy | hy
      · have := h1 y hy
        omega
      · have := h2 y hy
        omega
    · rcases hm with hm | hm
      · have := h3 m hm
        omega
      · have := h4 m hm
        omega
    · exact h5 h
    · exact h6 h
    · exact h7 h
  · intro hv
    refine ⟨?_, ?_, ?_, ?_, ?_, ?_, ?_⟩
    · intro y hy
      by_contra hc
      exact hv (Or.inl ⟨y, Or.inl hy, by omega⟩)
    · intro y hy
      by_contra hc
      exact hv (Or.inl ⟨y, Or.inr hy, by omega⟩)
    · intro m hm
      by_contra hc
      exact hv (Or.inr (Or.inl ⟨m, Or.inl hm, by omega⟩))
    · intro m hm
      by_contra hc
      exact hv (Or.inr (Or.inl ⟨m, Or.inr hm, by omega⟩))
    · intro h
      exact hv (Or.inr (Or.inr (Or.inl h)))
    · intro h
      exact hv (Or.inr (Or.inr (Or.inr (Or.inl h))))
    · intro h
      exact hv (Or.inr (Or.inr (Or.inr (Or.inr h))))

/-! ## C6 — HTML content validation (src/utils/content_validator.py)

`re.search(pattern, html, re.IGNORECASE)` is modelled per pattern: every
pattern in the three lists is a literal except the last profile-page feature,
which has a `.*?` gap that cannot cross a newline. -/

/-- UTF-8 byte encoding of one character, as `str.encode("utf-8")` yields. -/
def utf8Bytes (c : Char) : List Nat :=
  if c.toNat < 128 then [c.toNat]
  else if c.toNat < 2048 then [192 + c.toNat / 64, 128 + c.toNat % 64]
  else if c.toNat < 65536 then
    [224 + c.toNat / 4096, 128 + c.toNat / 64 % 64, 128 + c.toNat % 64]
  else
    [240 + c.toNat / 262144, 128 + c.toNat / 4096 % 64,
      128 + c.toNat / 64 % 64, 128 + c.toNat % 64]

/-- UTF-8 byte list of a string. -/
def strUtf8 (s : String) : List Nat :=
  (s.data.map utf8Bytes).flatten

/-- Python's `len(s.encode("utf-8"))`. -/
def utf8Len (s : String) : Nat :=
  (strUtf8 s).length

/-- A regex as used by `ContentValidator`: a literal, or two literals
separated by `.*?` (which cannot match a newline). -/
inductive RePat where
  | lit (s : String)
  | gapNoNL (a b : String)

/-- Scan for `b` at the current position or later, stopping at a newline. -/
def searchTail (b : List Char) : List Char → Bool
  | [] => isPrefixChars b []
  | c :: cs =>
    isPrefixChars b (c :: cs) || (if c = '\n' then false else searchTail b cs)

/-- Search for `a`, then `b` after a newline-free gap. -/
def searchGap (a b : List Char) : List Char → Bool
  | [] => isPrefixChars a [] && searchTail b []
  | c :: cs =>
    (isPrefixChars a (c :: cs) && searchTail b (List.drop a.length (c :: cs)))
      || searchGap a b cs

/-- Case-insensitive `re.search` for the validator's pattern shapes. -/
def matchRe (p : RePat) (html : String) : Bool :=
  match p with
  | .lit s => strContains (pyLower html) (pyLower s)
  | .gapNoNL a b => searchGap (pyLower a).data (pyLower b).data (pyLower html).data

/-- Bot-verification markers (`ContentValidator.security_patterns`). -/
def security_patterns : List RePat :=
  [.lit "百度安全验证", .lit "<title>百度安全验证</title>",
   .lit "class=\"passMod_dialog-header\"", .lit "class=\"bioc_popup_wrap\"",
   .lit "安全验证", .lit "请完成下方验证后继续操作", .lit "请向右滑动完成拼图",
   .lit "请依次点击", .lit "文字点选验证", .lit "滑动验证"]

/-- Network-error markers (`ContentValidator.error_patterns`). -/
def error_patterns : List RePat :=
  [.lit "<body class=\"neterror\"", .lit "ERR_TIMED_OUT",
   .lit "ERR_CONNECTION_RESET", .lit "ERR_CONNECTION_REFUSED",
   .lit "无法访问此网站", .lit "icon-generic", .lit "main-frame-error",
   .lit "响应时间过长", .lit "网络连接中断", .lit "检查网络连接"]

/-- Structural profile-page features (`ContentValidator.valid_patterns`;
renamed here because C1 already uses that identifier). -/
def cv_valid_patterns : List RePat :=
  [.lit "<div class=\"lemma-summary\"", .lit "<div class=\"basic-info\"",
   .lit "<h1 class=\"title\"", .lit "<div class=\"para",
   .lit "<div class=\"lemmaWgt-subjectNav\"",
   .gapNoNL "<div class=\"main-content\"" "百度百科"]

/-- The dictionary returned by `ContentValidator.is_valid_content`; absent
keys are `none`. -/
structure ValidationResult where
  valid : Bool
  reason : Option String
  content_size : Nat
  valid_features : Option Nat
  need_proxy_change : Option Bool

/-- `ContentValidator.is_valid_content`, parameterised by the instance's
`min_content_size` (constructor default 1024). -/
def is_valid_content (min_content_size : Nat) (html_content : String) :
    ValidationResult :=
  if html_content = "" then
    ⟨false, some "内容为空", 0, none, none⟩
  else if utf8Len html_content < min_content_size then
    ⟨false, some ("内容太小 (" ++ toString (utf8Len html_content) ++ " 字节)"),
      utf8Len html_content, none, none⟩
  else if security_patterns.any (fun p => matchRe p html_content) then
    ⟨false, some "触发百度安全验证", utf8Len html_content, none, some true⟩
  else if error_patterns.any (fun p => matchRe p html_content) then
    ⟨false, some "网络错误页面", utf8Len html_content, none, some true⟩
  else if (cv_valid_patterns.filter (fun p => matchRe p html_content)).length < 1 then
    ⟨false, some "缺少百科页面特征", utf8Len html_content,
      some ((cv_valid_patterns.filter (fun p => matchRe p html_content)).length),
      some true⟩
  else
    ⟨true, none, utf8Len html_content,
      some ((cv_valid_patterns.filter (fun p => matchRe p html_content)).length),
      none⟩

/-- C6: the validator applies its checks in the claimed short-circuit order:
empty payload; undersized payload (reason carries the byte count); bot
verification (proxy change requested); network error (proxy change
requested); missing profile features (proxy change requested); otherwise
valid with size and matched-feature count. -/
theorem c6_content_validator_order (min_content_size : Nat) (html : String) :
    (html = "" →
      is_valid_content min_content_size html =
        ⟨false, some "内容为空", 0, none, none⟩) ∧
    (html ≠ "" → utf8Len html < min_content_size →
      is_valid_content min_content_size html =
        ⟨false, some ("内容太小 (" ++ toString (utf8Len html) ++ " 字节)"),
          utf8Len html, none, none⟩) ∧
    (html ≠ "" → ¬ utf8Len html < min_content_size →
      security_patterns.any (fun p => matchRe p html) = true →
      is_valid_content min_content_size html =
        ⟨false, some "触发百度安全验证", utf8Len html, none, some true⟩) ∧
    (html ≠ "" → ¬ utf8Len html < min_content_size →
      security_patterns.any (fun p => matchRe p html) = false →
      error_patterns.any (fun p => matchRe p html) = true →
      is_valid_content min_content_size html =
        ⟨false, some "网络错误页面", utf8Len html, none, some true⟩) ∧
    (html ≠ "" → ¬ utf8Len html < min_content_size →
      security_patterns.any (fun p => matchRe p html) = false →
      error_patterns.any (fun p => matchRe p html) = false →
      (cv_valid_patterns.filter (fun p => matchRe p html)).length = 0 →
      is_valid_content min_content_size html =
        ⟨false, some "缺少百科页面特征", utf8Len html, some 0, some true⟩) ∧
    (html ≠ "" → ¬ utf8Len html < min_content_size →
      security_patterns.any (fun p => matchRe p html) = false →
      error_patterns.any (fun p => matchRe p html) = false →
      1 ≤ (cv_valid_patterns.filter (fun p => matchRe p html)).length →
      is_valid_content min_content_size html =
        ⟨true, none, utf8Len html,
          some ((cv_valid_patterns.filter (fun p => matchRe p html)).length),
          none⟩) := by
  refine ⟨?_, ?_, ?_, ?_, ?_, ?_⟩
  · intro h
    rw [is_valid_content, if_pos h]
  · intro h hs
    rw [is_valid_content, if_neg h, if_pos hs]
  · intro h hs hsec
    rw [is_valid_content, if_neg h, if_neg hs, if_pos hsec]
  · intro h hs hsec herr
    rw [is_valid_content, if_neg h, if_neg hs,
      if_neg (by simp [hsec] : ¬ security_patterns.any (fun p => matchRe p html) = true),
      if_pos herr]
  · intro h hs hsec herr hfeat
    rw [is_valid_content, if_neg h, if_neg hs,
      if_neg (by simp [hsec] : ¬ security_patterns.any (fun p => matchRe p html) = true),
      if_neg (by simp [herr] : ¬ error_patterns.any (fun p => matchRe p html) = true),
      if_pos (by omega : (cv_valid_patterns.filter (fun p => matchRe p html)).length < 1),
      hfeat]
  · intro h hs hsec herr hfeat
    rw [is_valid_content, if_neg h, if_neg hs,
      if_neg (by simp [hsec] : ¬ security_patterns.any (fun p => matchRe p html) = true),
      if_neg (by simp [herr] : ¬ error_patterns.any (fun p => matchRe p html) = true),
      if_neg (by omega :
        ¬ (cv_valid_patterns.filter (fun p => matchRe p html)).length < 1)]

/-- C6 witness: the empty payload is reported invalid with size 0. -/
theorem c6_content_validator_order_witness :
    is_valid_content 1024 "" = ⟨false, some "内容为空", 0, none, none⟩ :=
  (c6_content_validator_order 1024 "").1 rfl

/-! ## C3 — token cost tracking and the cost-limit flag
(src/leader/bio_processor.py)

Floating-point dollar amounts are modelled as rationals; an API response is
its usage block (or `none` when the response carries no usage). -/

/-- Token usage figures of one API response. -/
structure Usage where
  prompt_tokens : Nat
  completion_tokens : Nat
  total_tokens : Nat
  cached_tokens : Nat

/-- Mutable state of `TokenCostTracker`. -/
structure TokenCostTracker where
  input_price_per_1m : ℚ
  cached_input_price_per_1m : ℚ
  output_price_per_1m : ℚ
  total_input_tokens : Int
  total_cached_input_tokens : Int
  total_output_tokens : Int
  total_tokens : Int
  total_input_cost : ℚ
  total_cached_input_cost : ℚ
  total_output_cost : ℚ
  total_cost : ℚ
  cost_limit : Option ℚ
  limit_reached : Bool

/-- `TokenCostTracker.check_cost_limit_reached`: with a configured limit,
reaching it sets (and never clears) `limit_reached` and reports `true`. -/
def check_cost_limit_reached (t : TokenCostTracker) : TokenCostTracker × Bool :=
  match t.cost_limit with
  | none => (t, false)
  | some lim =>
    if t.total_cost ≥ lim then ({ t with limit_reached := true }, true)
    else (t, false)

/-- The statistics update performed by `update_from_response` under the lock,
before the final `check_cost_limit_reached` call. -/
def applyUsage (t : TokenCostTracker) (u : Usage) : TokenCostTracker :=
  let actual_input_tokens : Int := (u.prompt_tokens : Int) - (u.cached_tokens : Int)
  let input_cost : ℚ := (actual_input_tokens : ℚ) / 1000000 * t.input_price_per_1m
  let cached_cost : ℚ := (u.cached_tokens : ℚ) / 1000000 * t.cached_input_price_per_1m
  let output_cost : ℚ := (u.completion_tokens : ℚ) / 1000000 * t.output_price_per_1m
  { t with
    total_input_tokens := t.total_input_tokens + actual_input_tokens
    total_cached_input_tokens := t.total_cached_input_tokens + (u.cached_tokens : Int)
    total_output_tokens := t.total_output_tokens + (u.completion_tokens : Int)
    total_tokens := t.total_tokens + (u.total_tokens : Int)
    total_input_cost := t.total_input_cost + input_cost
    total_cached_input_cost := t.total_cached_input_cost + cached_cost
    total_output_cost := t.total_output_cost + output_cost
    total_cost := t.total_cost + (input_cost + cached_cost + output_cost) }

/-- `TokenCostTracker.update_from_response`: a response without usage data is
ignored; otherwise statistics are updated and the limit is re-checked. -/
def update_from_response (t : TokenCostTracker) (usage : Option Usage) :
    TokenCostTracker :=
  match usage with
  | none => t
  | some u => (check_cost_limit_reached (applyUsage t u)).1

/-- `BiographicalDataProcessor.extract_biographical_events`: the returned
triple is the tracker afterwards, whether the API was called, and the event
list handed back. With the flag set the call short-circuits to no API call
and `{"events": []}`. -/
def extract_biographical_events (t : TokenCostTracker) (apiUsage : Option Usage)
    (apiEvents : List BaseEventInput) :
    TokenCostTracker × Bool × List BaseEventInput :=
  if t.limit_reached then (t, false, [])
  else (update_from_response t apiUsage, true, apiEvents)

/-- One tracker-touching step of the biography-structuring run. -/
inductive TrackerOp where
  | response (usage : Option Usage)
  | check
  | extractCall (usage : Option Usage) (events : List BaseEventInput)

/-- Effect of one step on the tracker. -/
def trackerStep (t : TokenCostTracker) : TrackerOp → TokenCostTracker
  | .response u => update_from_response t u
  | .check => (check_cost_limit_reached t).1
  | .extractCall u ev => (extract_biographical_events t u ev).1

/-- The tracker after a sequence of steps. -/
def trackerRun (t : TokenCostTracker) (ops : List TrackerOp) : TokenCostTracker :=
  ops.foldl trackerStep t

theorem check_preserves_flag (t : TokenCostTracker) (h : t.limit_reached = true) :
    (check_cost_limit_reached t).1.limit_reached = true := by
  rcases hc : t.cost_limit with _ | lim
  · simp [check_cost_limit_reached, hc, h]
  · simp only [check_cost_limit_reached, hc]
    split
    · rfl
    · exact h

theorem check_keeps_cost (t : TokenCostTracker) :
    (check_cost_limit_reached t).1.total_cost = t.total_cost := by
  rcases hc : t.cost_limit with _ | lim
  · simp [check_cost_limit_reached, hc]
  · simp only [check_cost_limit_reached, hc]
    split
    · rfl
    · rfl

theorem check_sets_flag (t : TokenCostTracker) (lim : ℚ)
    (hl : t.cost_limit = some lim) (hge : t.total_cost ≥ lim) :
    (check_cost_limit_reached t).1.limit_reached = true := by
  simp [check_cost_limit_reached, hl, hge]

theorem update_preserves_flag (t : TokenCostTracker) (u : Option Usage)
    (h : t.limit_reached = true) :
    (update_from_response t u).limit_reached = true := by
  cases u with
  | none => simpa [update_from_response] using h
  | some u =>
    exact check_preserves_flag (applyUsage t u) h

theorem trackerStep_mono (t : TokenCostTracker) (op : TrackerOp)
    (h : t.limit_reached = true) : (trackerStep t op).limit_reached = true := by
  cases op with
  | response u => exact update_preserves_flag t u h
  | check => exact check_preserves_flag t h
  | extractCall u ev =>
    simp only [trackerStep, extract_biographical_events, h, if_true]

/-- C3: reaching the configured cost limit sets `limit_reached`; the flag is
never cleared by any later tracker-touching step; and while it is set every
`extract_biographical_events` call returns `{"events": []}` without an API
call and without touching the tracker. -/
theorem c3_cost_limit_flag :
    (∀ (t : TokenCostTracker) (lim : ℚ) (u : Usage),
      t.cost_limit = some lim →
      (update_from_response t (some u)).total_cost ≥ lim →
      (update_from_response t (some u)).limit_reached = true) ∧
    (∀ (t : TokenCostTracker) (ops : List TrackerOp),
      t.limit_reached = true → (trackerRun t ops).limit_reached = true) ∧
    (∀ (t : TokenCostTracker) (u : Option Usage) (ev : List BaseEventInput),
      t.limit_reached = true →
      extract_biographical_events t u ev = (t, false, [])) := by
  refine ⟨?_, ?_, ?_⟩
  · intro t lim u hlim hge
    simp only [update_from_response] at hge ⊢
    apply check_sets_flag (applyUsage t u) lim hlim
    rwa [check_keeps_cost] at hge
  · intro t ops h
    induction ops generalizing t with
    | nil => simpa [trackerRun] using h
    | cons op ops ih =>
      simp only [trackerRun, List.foldl_cons]
      exact ih (trackerStep t op) (trackerStep_mono t op h)
  · intro t u ev h
    simp [extract_biographical_events, h]

/-- A tracker whose cost limit has already been reached. -/
def demoTracker : TokenCostTracker :=
  { input_price_per_1m := 5 / 2
    cached_input_price_per_1m := 5 / 4
    output_price_per_1m := 10
    total_input_tokens := 0
    total_cached_input_tokens := 0
    total_output_tokens := 0
    total_tokens := 0
    total_input_cost := 0
    total_cached_input_cost := 0
    total_output_cost := 0
    total_cost := 1
    cost_limit := some 1
    limit_reached := true }

/-- C3 witness: with the flag set, a concrete extraction call returns the
empty event list, makes no API call, and leaves the tracker untouched. -/
theorem c3_cost_limit_flag_witness :
    extract_biographical_events demoTracker none [] = (demoTracker, false, []) :=
  c3_cost_limit_flag.2.2 demoTracker none [] rfl

/-! ## C7 — organization HTML acquisition
(src/org/update_c_org_info_remark.py)

A row is the subset of `c_org_info` the loop touches; the Selenium fetcher is
an oracle from URL to optional page content; the pair component counts fetch
attempts for the row. -/

/-- A `c_org_info` row as seen by `fetch_and_store_html`. -/
structure OrgRow where
  id : Nat
  uuid : String
  org_name : String
  source_url : Option String
  remark : Option String

/-- Python truthiness of a nullable string column. -/
def optTruthy (o : Option String) : Bool :=
  match o with
  | none => false
  | some s => s ≠ ""

/-- The per-organization body of `fetch_and_store_html`: a truthy `remark`
skips, a missing `source_url` skips, otherwise one fetch attempt is made and
a truthy result is written to `remark`. -/
def processOrg (fetch : String → Option String) (org : OrgRow) : OrgRow × Nat :=
  if optTruthy org.remark then (org, 0)
  else if !optTruthy org.source_url then (org, 0)
  else
    match fetch (org.source_url.getD "") with
    | some html =>
      if html = "" then (org, 1) else ({ org with remark := some html }, 1)
    | none => (org, 1)

/-- `fetch_and_store_html` over the selected rows: the rows afterwards and
the total number of fetch attempts. -/
def fetch_and_store_html (fetch : String → Option String) (orgs : List OrgRow) :
    List OrgRow × Nat :=
  orgs.foldl
    (fun acc org =>
      (acc.1 ++ [(processOrg fetch org).1], acc.2 + (processOrg fetch org).2))
    ([], 0)

/-- C7: an organization whose `remark` is already non-empty is never fetched
and keeps its `remark` byte-for-byte; a second run over rows that all carry a
non-empty `remark` returns them unchanged with zero fetch attempts. -/
theorem c7_acquisition_idempotent :
    (∀ (fetch : String → Option String) (org : OrgRow),
      optTruthy org.remark = true → processOrg fetch org = (org, 0)) ∧
    (∀ (fetch : String → Option String) (orgs : List OrgRow),
      (∀ o ∈ orgs, optTruthy o.remark = true) →
      fetch_and_store_html fetch orgs = (orgs, 0)) := by
  refine ⟨?_, ?_⟩
  · intro fetch org h
    simp [processOrg, h]
  · intro fetch orgs h
    have key : ∀ (l : List OrgRow) (acc : List OrgRow) (n : Nat),
        (∀ o ∈ l, optTruthy o.remark = true) →
        l.foldl
          (fun acc org =>
            (acc.1 ++ [(processOrg fetch org).1], acc.2 + (processOrg fetch org).2))
          (acc, n) = (acc ++ l, n) := by
      intro l
      induction l with
      | nil =>
        intro acc n _
        simp
      | cons o os ih =>
        intro acc n hl
        have ho : processOrg fetch o = (o, 0) := by
          simp [processOrg, hl o (List.mem_cons_self o os)]
        simp only [List.foldl_cons, ho]
        simpa using ih (acc ++ [o]) n (fun x hx => hl x (List.mem_cons_of_mem o hx))
    simpa using key orgs [] 0 h

/-- An organization whose HTML is already stored. -/
def demoOrg : OrgRow :=
  ⟨1, "u1", "org", some "http://example.invalid", some "<html>cached</html>"⟩

/-- C7 witness: a second acquisition run over an already-populated row
changes nothing and fetches nothing. -/
theorem c7_acquisition_idempotent_witness :
    fetch_and_store_html (fun _ => none) [demoOrg] = ([demoOrg], 0) :=
  c7_acquisition_idempotent.2 (fun _ => none) [demoOrg]
    (by
      intro o ho
      rw [List.mem_singleton] at ho
      subst ho
      decide)

/-! ## C10 — the two cache filename builders
(src/utils/html_cache.py and src/utils/file_utils.py)

`str.isalnum` and the `\w` class agree on the alphanumeric part; the model
covers ASCII alphanumerics plus CJK ideographs, which is the shape of every
input the repository feeds these functions. -/

/-- Shared alphanumeric test of `\w` and `str.isalnum`. -/
def pyIsAlnum (c : Char) : Bool :=
  c.isAlphanum || (19968 ≤ c.toNat && c.toNat ≤ 40959)

/-- `re.sub` replacement of `safe_filename`: keep `\w`, `-`, `.`; everything
else becomes `_`. -/
def keepSafeChar (c : Char) : Char :=
  if pyIsAlnum c || c = '_' || c = '-' || c = '.' then c else '_'

/-- `safe_filename` (src/utils/file_utils.py). -/
def safe_filename (filename : String) : String :=
  if String.mk (filename.data.map keepSafeChar) = "" ∨
      String.mk (filename.data.map keepSafeChar) = "." then "unnamed_file"
  else String.mk (filename.data.map keepSafeChar)

/-- Characters kept by `get_cache_path`: `c.isalnum() or c in "_-"`. -/
def isPathChar (c : Char) : Bool :=
  pyIsAlnum c || c = '_' || c = '-'

/-- The basename `HTMLCacheManager.is_cached` looks up in its index. -/
def is_cached_filename (person_name person_id : String) : String :=
  safe_filename person_name ++ "_" ++ person_id ++ ".html"

/-- The basename built by `get_cache_path` and read by `get_html_content`. -/
def cache_path_filename (person_name person_id : String) : String :=
  String.mk (person_name.data.filter isPathChar) ++ "_" ++ person_id ++ ".html"

/-- `is_cached` against the cache directory's basenames. -/
def is_cached (files : List String) (person_name person_id : String) : Bool :=
  files.contains (is_cached_filename person_name person_id)

/-- `get_html_content` against the same directory (basename, content). -/
def get_html_content (files : List (String × String))
    (person_name person_id : String) : Option String :=
  (files.find? (fun f => f.1 == cache_path_filename person_name person_id)).map
    Prod.snd

theorem mapKeepSafeOfClass (l : List Char)
    (h : ∀ c ∈ l, pyIsAlnum c = true ∨ c = '_' ∨ c = '-') :
    l.map keepSafeChar = l := by
  induction l with
  | nil => rfl
  | cons c cs ih =>
    have hc : keepSafeChar c = c := by
      rcases h c (List.mem_cons_self c cs) with h1 | h1 | h1 <;>
        simp [keepSafeChar, h1]
    simp [hc, ih (fun x hx => h x (List.mem_cons_of_mem c hx))]

theorem filterPathOfClass (l : List Char)
    (h : ∀ c ∈ l, pyIsAlnum c = true ∨ c = '_' ∨ c = '-') :
    l.filter isPathChar = l := by
  induction l with
  | nil => rfl
  | cons c cs ih =>
    have hc : isPathChar c = true := by
      rcases h c (List.mem_cons_self c cs) with h1 | h1 | h1 <;>
        simp [isPathChar, h1]
    simp [List.filter_cons, hc, ih (fun x hx => h x (List.mem_cons_of_mem c hx))]

/-- C10 counterexample: the claim's universal part, instantiated at the empty
person name (which vacuously consists only of alphanumerics, `_` and `-`),
is false: `safe_filename` falls back to `unnamed_file` while `get_cache_path`
keeps the empty stem. -/
theorem c10_cache_filename_counterexample :
    (∀ c ∈ ("" : String).data, pyIsAlnum c = true ∨ c = '_' ∨ c = '-') ∧
    is_cached_filename "" "1" ≠ cache_path_filename "" "1" := by
  decide

/-- C10 amended: for every NON-EMPTY person name of alphanumerics, `_` and
`-` the two filename builders agree; they differ on names with a space or a
dot, and then `get_html_content` misses a file `is_cached` reports cached. -/
theorem c10_cache_filename_mismatch :
    (∀ name id : String, name ≠ "" →
      (∀ c ∈ name.data, pyIsAlnum c = true ∨ c = '_' ∨ c = '-') →
      is_cached_filename name id = cache_path_filename name id) ∧
    (is_cached_filename "张 伟" "42" ≠ cache_path_filename "张 伟" "42" ∧
      is_cached ["张_伟_42.html"] "张 伟" "42" = true ∧
      get_html_content [("张_伟_42.html", "<html></html>")] "张 伟" "42" = none) ∧
    is_cached_filename "mr.smith" "7" ≠ cache_path_filename "mr.smith" "7" := by
  refine ⟨?_, by decide, by decide⟩
  intro name id hne hclass
  have hdot : name ≠ "." := by
    intro hd
    subst hd
    rcases hclass '.' (by decide) with h1 | h1 | h1 <;> exact absurd h1 (by decide)
  have hmk : String.mk name.data = name := rfl
  simp only [is_cached_filename, cache_path_filename, safe_filename,
    mapKeepSafeOfClass name.data hclass, filterPathOfClass name.data hclass, hmk]
  rw [if_neg (by simp [hne, hdot])]

/-- C10 witness: a name of plain alphanumerics, `_` and `-` gets the same
filename from both builders. -/
theorem c10_cache_filename_mismatch_witness :
    is_cached_filename "zhang-wei_3" "9" = cache_path_filename "zhang-wei_3" "9" :=
  c10_cache_filename_mismatch.1 "zhang-wei_3" "9" (by decide) (by decide)

/-! ## C9 — `Config` singleton semantics (src/config/settings.py)

Python object identity is modelled by a heap of `Config` objects indexed by
allocation order, with the class attribute `Config._instance` as an optional
index. `Config(...)` runs `__new__` (reusing the singleton when present) and
then the dataclass `__init__`, which re-assigns every field. `from_file` is
modelled by the outcome of its file handling: each of its paths ends in a
`cls(...)` call. -/

/-- A JSON/YAML-ish Python value for dict-typed config fields. -/
inductive PVal where
  | pstr (s : String)
  | pint (n : Int)
  | pbool (b : Bool)
  | plist (l : List PVal)
  | pdict (l : List (String × PVal))

/-- The fields of the `Config` dataclass. -/
structure ConfigFields where
  input_csv_path : String
  output_dir : String
  num_producers : Int
  num_consumers : Int
  use_mobile : Bool
  max_retries : Int
  min_content_size : Int
  use_proxy : Bool
  proxy_config : PVal
  save_interval : Int
  request_delay_min : ℚ
  request_delay_max : ℚ
  azure_openai_endpoint : String
  azure_openai_api_key : String
  azure_openai_api_version : String
  qwen_api_key : String
  ai_max_threads : Int
  ai_request_rate : Int
  ai_token_limit : Int
  neo4j_config : PVal

/-- Keyword arguments passed to `Config(...)`; `none` means the keyword is
absent and the declared default applies. -/
structure ConfigKwargs where
  input_csv_path : Option String
  output_dir : Option String
  num_producers : Option Int
  num_consumers : Option Int
  use_mobile : Option Bool
  max_retries : Option Int
  min_content_size : Option Int
  use_proxy : Option Bool
  proxy_config : Option PVal
  save_interval : Option Int
  request_delay_min : Option ℚ
  request_delay_max : Option ℚ
  azure_openai_endpoint : Option String
  azure_openai_api_key : Option String
  azure_openai_api_version : Option String
  qwen_api_key : Option String
  ai_max_threads : Option Int
  ai_request_rate : Option Int
  ai_token_limit : Option Int
  neo4j_config : Option PVal

/-- `Config()` with no keyword arguments. -/
def noKwargs : ConfigKwargs :=
  ⟨none, none, none, none, none, none, none, none, none, none,
   none, none, none, none, none, none, none, none, none, none⟩

/-- The dataclass `__init__`: every field is assigned its keyword value or
its declared default. -/
def initConfig (kw : ConfigKwargs) : ConfigFields where
  input_csv_path := kw.input_csv_path.getD "shanghai_leadership_list.csv"
  output_dir := kw.output_dir.getD "./data"
  num_producers := kw.num_producers.getD 10
  num_consumers := kw.num_consumers.getD 1
  use_mobile := kw.use_mobile.getD true
  max_retries := kw.max_retries.getD 3
  min_content_size := kw.min_content_size.getD 1024
  use_proxy := kw.use_proxy.getD true
  proxy_config := kw.proxy_config.getD
    (.pdict [("providers", .plist []), ("refresh_interval", .pint 15),
      ("min_proxies", .pint 20)])
  save_interval := kw.save_interval.getD 10
  request_delay_min := kw.request_delay_min.getD 1
  request_delay_max := kw.request_delay_max.getD 3
  azure_openai_endpoint := kw.azure_openai_endpoint.getD "your_url"
  azure_openai_api_key := kw.azure_openai_api_key.getD "your_key"
  azure_openai_api_version := kw.azure_openai_api_version.getD "2024-10-21"
  qwen_api_key := kw.qwen_api_key.getD "your_key"
  ai_max_threads := kw.ai_max_threads.getD 10
  ai_request_rate := kw.ai_request_rate.getD 8
  ai_token_limit := kw.ai_token_limit.getD 90000
  neo4j_config := kw.neo4j_config.getD
    (.pdict [("uri", .pstr "bolt://localhost:27687"), ("user", .pstr "neo4j"),
      ("password", .pstr "your_password")])

/-- All declared defaults of the dataclass. -/
def defaultConfig : ConfigFields :=
  initConfig noKwargs

/-- Heap of allocated `Config` objects plus the class-level `_instance`. -/
structure PyHeap where
  objs : List ConfigFields
  inst : Option Nat

/-- `Config(**kw)`: `__new__` reuses (or allocates) the singleton, then the
dataclass `__init__` re-assigns every field of that object. Returns the new
heap and the returned object's index. -/
def configNew (h : PyHeap) (kw : ConfigKwargs) : PyHeap × Nat :=
  match h.inst with
  | some i => (⟨h.objs.set i (initConfig kw), some i⟩, i)
  | none => (⟨h.objs ++ [initConfig kw], some h.objs.length⟩, h.objs.length)

/-- How `Config.from_file` got on with the file: missing file, parsed
keyword  dict, unsupported extension, or a raised exception. -/
inductive FileOutcome where
  | missing
  | parsedKwargs (kw : ConfigKwargs)
  | unsupportedExt
  | loadError

/-- `Config.from_file`: every path ends in a construction — `cls(**data)` on
success, `cls()` on the three fallback paths. -/
def config_from_file (h : PyHeap) (fo : FileOutcome) : PyHeap × Nat :=
  match fo with
  | .parsedKwargs kw => configNew h kw
  | .missing => configNew h noKwargs
  | .unsupportedExt => configNew h noKwargs
  | .loadError => configNew h noKwargs

theorem listGetSetSelf (l : List ConfigFields) (i : Nat) (a : ConfigFields)
    (h : i < l.length) : (l.set i a)[i]? = some a := by
  induction l generalizing i with
  | nil => simp at h
  | cons x xs ih =>
    cases i with
    | zero => simp
    | succ n =>
      simpa using ih n (by simpa using h)

theorem configNew_then (h : PyHeap) (kw1 kw2 : ConfigKwargs)
    (hwf : ∀ j, h.inst = some j → j < h.objs.length) :
    (configNew (configNew h kw1).1 kw2).2 = (configNew h kw1).2 ∧
    (configNew (configNew h kw1).1 kw2).1.objs[(configNew h kw1).2]? =
      some (initConfig kw2) := by
  rcases hinst : h.inst with _ | i
  · simp only [configNew, hinst]
    refine ⟨trivial, ?_⟩
    exact listGetSetSelf _ _ _ (by simp)
  · have hi := hwf i hinst
    simp only [configNew, hinst]
    refine ⟨trivial, ?_⟩
    exact listGetSetSelf _ _ _ (by simpa using hi)

/-- C9: every `Config(...)` construction returns the one singleton object and
re-runs the dataclass field initialisation on it; and after any
`Config.from_file` call (success or fallback), a later plain `Config()`
returns the same object with every field reset to its declared default. -/
theorem c9_config_singleton_reset :
    (∀ (h : PyHeap) (kw : ConfigKwargs) (i : Nat), h.inst = some i →
      configNew h kw = (⟨h.objs.set i (initConfig kw), some i⟩, i)) ∧
    (∀ (h : PyHeap) (fo : FileOutcome),
      (∀ j, h.inst = some j → j < h.objs.length) →
      (configNew (config_from_file h fo).1 noKwargs).2 =
        (config_from_file h fo).2 ∧
      (configNew (config_from_file h fo).1 noKwargs).1.objs[
        (config_from_file h fo).2]? = some defaultConfig) := by
  constructor
  · intro h kw i hi
    simp [configNew, hi]
  · intro h fo hwf
    obtain ⟨kw0, hk⟩ : ∃ kw0, config_from_file h fo = configNew h kw0 := by
      cases fo
      · exact ⟨noKwargs, rfl⟩
      · exact ⟨_, rfl⟩
      · exact ⟨noKwargs, rfl⟩
      · exact ⟨noKwargs, rfl⟩
    rw [hk, show defaultConfig = initConfig noKwargs from rfl]
    exact configNew_then h kw0 noKwargs hwf

/-- C9 witness: from the empty heap, loading keyword arguments that override
the producer count and then calling plain `Config()` yields the same object
index with all defaults restored. -/
theorem c9_config_singleton_reset_witness :
    (configNew (config_from_file ⟨[], none⟩
      (.parsedKwargs { noKwargs with num_producers := some 99 })).1 noKwargs).2 =
      (config_from_file ⟨[], none⟩
        (.parsedKwargs { noKwargs with num_producers := some 99 })).2 ∧
    (configNew (config_from_file ⟨[], none⟩
      (.parsedKwargs { noKwargs with num_producers := some 99 })).1 noKwargs).1.objs[
      (config_from_file ⟨[], none⟩
        (.parsedKwargs { noKwargs with num_producers := some 99 })).2]? =
      some defaultConfig :=
  c9_config_singleton_reset.2 ⟨[], none⟩
    (.parsedKwargs { noKwargs with num_producers := some 99 })
    (by intro j hj; exact absurd hj (by simp))

/-! ## C8 — upsert of discovered leaders
(src/leader/update_c_org_leader_info.py, `insert_or_update_leader`)

The `c_org_leader_info` table is a list of rows; `str.split(",")` and
`",".join` are modelled on char lists. -/

/-- A `c_org_leader_info` row. -/
structure LeaderRow where
  uuid : String
  org_info_id : String
  org_info_uuid : String
  leader_name : String
  source_url : String
  org_name : String

/-- A leader dict produced by `extract_leaders`. -/
structure LeaderData where
  org_info_id : String
  org_info_uuid : String
  uuid : String
  leader_name : String
  source_url : String

/-- Python's `s.split(",")` accumulator loop on char lists. -/
def splitCommaChars : List Char → List Char → List (List Char)
  | [], acc => [acc]
  | c :: cs, acc =>
    if c = ',' then acc :: splitCommaChars cs []
    else splitCommaChars cs (acc ++ [c])

/-- Python's `s.split(",")`. -/
def splitComma (s : String) : List String :=
  (splitCommaChars s.data []).map String.mk

/-- Python's `",".join(l)`. -/
def joinComma : List String → String
  | [] => ""
  | [x] => x
  | x :: xs => x ++ "," ++ joinComma xs

/-- `if x not in l: l.append(x)`, the update step of each provenance list. -/
def appendIfMissing (l : List String) (x : String) : List String :=
  if x ∈ l then l else l ++ [x]

/-- The row written back by the UPDATE branch: split each provenance list,
append the new entry when missing, re-join. -/
def updatedLeaderRow (ld : LeaderData) (orgName : String) (existing r : LeaderRow) :
    LeaderRow :=
  { r with
    org_info_id := joinComma (appendIfMissing
      (splitComma existing.org_info_id) ld.org_info_id)
    org_info_uuid := joinComma (appendIfMissing
      (splitComma existing.org_info_uuid) ld.org_info_uuid)
    org_name := joinComma (appendIfMissing
      (if existing.org_name ≠ "" then splitComma existing.org_name else [])
      orgName) }

/-- `insert_or_update_leader`: a row with the leader's `uuid` gets the three
comma-joined provenance lists extended (each only when the new entry is not
already present); otherwise a fresh row is inserted. -/
def insert_or_update_leader (table : List LeaderRow) (ld : LeaderData)
    (orgName : String) : List LeaderRow :=
  match table.find? (fun r => r.uuid == ld.uuid) with
  | some existing =>
    table.map (fun r =>
      if r.uuid == ld.uuid then updatedLeaderRow ld orgName existing r else r)
  | none =>
    table ++ [⟨ld.uuid, ld.org_info_id, ld.org_info_uuid, ld.leader_name,
      ld.source_url, orgName⟩]

theorem splitCommaChars_free (l : List Char) (h : ∀ c ∈ l, c ≠ ',') :
    ∀ acc, splitCommaChars l acc = [acc ++ l] := by
  induction l with
  | nil =>
    intro acc
    simp [splitCommaChars]
  | cons c cs ih =>
    intro acc
    have hc := h c (List.mem_cons_self c cs)
    simp only [splitCommaChars, if_neg hc]
    rw [ih (fun x hx => h x (List.mem_cons_of_mem c hx)) (acc ++ [c])]
    simp

theorem splitCommaChars_append (a : List Char) (b : List Char)
    (h : ∀ c ∈ a, c ≠ ',') :
    ∀ acc, splitCommaChars (a ++ ',' :: b) acc =
      (acc ++ a) :: splitCommaChars b [] := by
  induction a with
  | nil =>
    intro acc
    simp [splitCommaChars]
  | cons c cs ih =>
    intro acc
    have hc := h c (List.mem_cons_self c cs)
    simp only [List.cons_append, splitCommaChars, if_neg hc, List.append_eq]
    rw [ih (fun x hx => h x (List.mem_cons_of_mem c hx)) (acc ++ [c])]
    simp

theorem splitComma_single (s : String) (h : ∀ c ∈ s.data, c ≠ ',') :
    splitComma s = [s] := by
  unfold splitComma
  rw [splitCommaChars_free s.data h []]
  simp only [List.nil_append, List.map_cons, List.map_nil]

theorem splitComma_pair (x y : String) (hx : ∀ c ∈ x.data, c ≠ ',') :
    splitComma (x ++ "," ++ y) = x :: splitComma y := by
  unfold splitComma
  have hdata : (x ++ "," ++ y).data = x.data ++ ',' :: y.data := by
    simp [String.data_append]
  rw [hdata, splitCommaChars_append x.data y.data hx []]
  simp only [List.nil_append, List.map_cons]

theorem append_comma_ne_empty (x y : String) : x ++ "," ++ y ≠ "" := by
  intro hEq
  have hd : (x ++ "," ++ y).data = x.data ++ ',' :: y.data := by
    simp [String.data_append]
  rw [hEq] at hd
  exact absurd hd.symm (by simp [show ("" : String).data = [] from rfl])

theorem find?_uuid_none (t : List LeaderRow) (u : String)
    (h : ∀ r ∈ t, r.uuid ≠ u) : t.find? (fun r => r.uuid == u) = none := by
  induction t with
  | nil => rfl
  | cons r rs ih =>
    have hr : (r.uuid == u) = false := by
      simp only [beq_eq_false_iff_ne, ne_eq]
      exact h r (List.mem_cons_self r rs)
    rw [List.find?_cons_of_neg _ (by simp [hr])]
    exact ih (fun x hx => h x (List.mem_cons_of_mem r hx))

theorem find?_uuid_append (t : List LeaderRow) (row : LeaderRow) (u : String)
    (h : ∀ r ∈ t, r.uuid ≠ u) (hrow : row.uuid = u) :
    (t ++ [row]).find? (fun r => r.uuid == u) = some row := by
  induction t with
  | nil =>
    simp only [List.nil_append]
    rw [List.find?_cons_of_pos _ (by simp [hrow])]
  | cons r rs ih =>
    have hr : (r.uuid == u) = false := by
      simp only [beq_eq_false_iff_ne, ne_eq]
      exact h r (List.mem_cons_self r rs)
    rw [List.cons_append, List.find?_cons_of_neg _ (by simp [hr])]
    exact ih (fun x hx => h x (List.mem_cons_of_mem r hx))

theorem map_update_skip (t : List LeaderRow) (u : String)
    (f : LeaderRow → LeaderRow) (h : ∀ r ∈ t, r.uuid ≠ u) :
    t.map (fun r => if r.uuid == u then f r else r) = t := by
  induction t with
  | nil => rfl
  | cons r rs ih =>
    have hr : (r.uuid == u) = false := by
      simp only [beq_eq_false_iff_ne, ne_eq]
      exact h r (List.mem_cons_self r rs)
    simp only [List.map_cons, hr, Bool.false_eq_true, if_false]
    rw [ih (fun x hx => h x (List.mem_cons_of_mem r hx))]

theorem filter_uuid_singleton (t : List LeaderRow) (row : LeaderRow) (u : String)
    (h : ∀ r ∈ t, r.uuid ≠ u) (hrow : row.uuid = u) :
    (t ++ [row]).filter (fun r => r.uuid == u) = [row] := by
  rw [List.filter_append]
  have ht : t.filter (fun r => r.uuid == u) = [] := by
    rw [List.filter_eq_nil_iff]
    intro r hr
    simp [h r hr]
  rw [ht]
  simp [hrow]

theorem insert_new (t : List LeaderRow) (ld : LeaderData) (orgName : String)
    (h : ∀ r ∈ t, r.uuid ≠ ld.uuid) :
    insert_or_update_leader t ld orgName =
      t ++ [⟨ld.uuid, ld.org_info_id, ld.org_info_uuid, ld.leader_name,
        ld.source_url, orgName⟩] := by
  unfold insert_or_update_leader
  rw [find?_uuid_none t ld.uuid h]

theorem insert_existing (t : List LeaderRow) (ld : LeaderData) (orgName : String)
    (ex : LeaderRow)
    (hfind : t.find? (fun r => r.uuid == ld.uuid) = some ex) :
    insert_or_update_leader t ld orgName =
      t.map (fun r =>
        if r.uuid == ld.uuid then updatedLeaderRow ld orgName ex r else r) := by
  unfold insert_or_update_leader
  rw [hfind]

/-- C8: the same leader `uuid` discovered first in organization A's HTML and
then in organization B's leaves exactly one row, whose three comma-joined
lists hold A's entry then B's; re-processing organization B a third time
changes nothing. -/
theorem c8_leader_upsert (t : List LeaderRow)
    (u ia ib ua ub na nb nmA urlA nmB urlB : String)
    (ht : ∀ r ∈ t, r.uuid ≠ u)
    (hia : ∀ c ∈ ia.data, c ≠ ',') (hib : ∀ c ∈ ib.data, c ≠ ',')
    (hua : ∀ c ∈ ua.data, c ≠ ',') (hub : ∀ c ∈ ub.data, c ≠ ',')
    (hna : ∀ c ∈ na.data, c ≠ ',') (hnb : ∀ c ∈ nb.data, c ≠ ',')
    (hnaE : na ≠ "")
    (hiab : ib ≠ ia) (huab : ub ≠ ua) (hnab : nb ≠ na) :
    insert_or_update_leader (insert_or_update_leader t ⟨ia, ua, u, nmA, urlA⟩ na)
        ⟨ib, ub, u, nmB, urlB⟩ nb =
      t ++ [⟨u, ia ++ "," ++ ib, ua ++ "," ++ ub, nmA, urlA, na ++ "," ++ nb⟩] ∧
    ((t ++ [(⟨u, ia ++ "," ++ ib, ua ++ "," ++ ub, nmA, urlA,
        na ++ "," ++ nb⟩ : LeaderRow)]).filter (fun r => r.uuid == u)).length = 1 ∧
    insert_or_update_leader
        (t ++ [⟨u, ia ++ "," ++ ib, ua ++ "," ++ ub, nmA, urlA, na ++ "," ++ nb⟩])
        ⟨ib, ub, u, nmB, urlB⟩ nb =
      t ++ [⟨u, ia ++ "," ++ ib, ua ++ "," ++ ub, nmA, urlA, na ++ "," ++ nb⟩] := by
  have h1 : insert_or_update_leader t ⟨ia, ua, u, nmA, urlA⟩ na =
      t ++ [⟨u, ia, ua, nmA, urlA, na⟩] :=
    insert_new t ⟨ia, ua, u, nmA, urlA⟩ na ht
  have hfind2 : (t ++ [(⟨u, ia, ua, nmA, urlA, na⟩ : LeaderRow)]).find?
      (fun r => r.uuid == u) = some ⟨u, ia, ua, nmA, urlA, na⟩ :=
    find?_uuid_append t ⟨u, ia, ua, nmA, urlA, na⟩ u ht rfl
  have eids : joinComma (appendIfMissing (splitComma ia) ib) = ia ++ "," ++ ib := by
    rw [splitComma_single ia hia]
    unfold appendIfMissing
    rw [if_neg (by simp [hiab])]
    rfl
  have euus : joinComma (appendIfMissing (splitComma ua) ub) = ua ++ "," ++ ub := by
    rw [splitComma_single ua hua]
    unfold appendIfMissing
    rw [if_neg (by simp [huab])]
    rfl
  have enames : joinComma (appendIfMissing (splitComma na) nb) =
      na ++ "," ++ nb := by
    rw [splitComma_single na hna]
    unfold appendIfMissing
    rw [if_neg (by simp [hnab])]
    rfl
  have hrowEq : updatedLeaderRow ⟨ib, ub, u, nmB, urlB⟩ nb
      ⟨u, ia, ua, nmA, urlA, na⟩ ⟨u, ia, ua, nmA, urlA, na⟩ =
      ⟨u, ia ++ "," ++ ib, ua ++ "," ++ ub, nmA, urlA, na ++ "," ++ nb⟩ := by
    unfold updatedLeaderRow
    rw [if_pos hnaE]
    rw [eids, euus, enames]
  have h2 : insert_or_update_leader (t ++ [⟨u, ia, ua, nmA, urlA, na⟩])
      ⟨ib, ub, u, nmB, urlB⟩ nb =
      t ++ [⟨u, ia ++ "," ++ ib, ua ++ "," ++ ub, nmA, urlA, na ++ "," ++ nb⟩] := by
    rw [insert_existing _ _ _ _ hfind2]
    show (t ++ [(⟨u, ia, ua, nmA, urlA, na⟩ : LeaderRow)]).map
        (fun r => if r.uuid == u then
          updatedLeaderRow (⟨ib, ub, u, nmB, urlB⟩ : LeaderData) nb
            (⟨u, ia, ua, nmA, urlA, na⟩ : LeaderRow) r
        else r) =
      t ++ [⟨u, ia ++ "," ++ ib, ua ++ "," ++ ub, nmA, urlA, na ++ "," ++ nb⟩]
    rw [List.map_append, map_update_skip t u _ ht]
    simp [hrowEq]
  have h3 : ((t ++ [(⟨u, ia ++ "," ++ ib, ua ++ "," ++ ub, nmA, urlA,
      na ++ "," ++ nb⟩ : LeaderRow)]).filter (fun r => r.uuid == u)).length = 1 := by
    rw [filter_uuid_singleton t _ u ht rfl]
    rfl
  have hfind3 : (t ++ [(⟨u, ia ++ "," ++ ib, ua ++ "," ++ ub, nmA, urlA,
      na ++ "," ++ nb⟩ : LeaderRow)]).find? (fun r => r.uuid == u) =
      some ⟨u, ia ++ "," ++ ib, ua ++ "," ++ ub, nmA, urlA, na ++ "," ++ nb⟩ :=
    find?_uuid_append t _ u ht rfl
  have eids3 : joinComma (appendIfMissing (splitComma (ia ++ "," ++ ib)) ib) =
      ia ++ "," ++ ib := by
    rw [splitComma_pair ia ib hia, splitComma_single ib hib]
    unfold appendIfMissing
    rw [if_pos (by simp)]
    rfl
  have euus3 : joinComma (appendIfMissing (splitComma (ua ++ "," ++ ub)) ub) =
      ua ++ "," ++ ub := by
    rw [splitComma_pair ua ub hua, splitComma_single ub hub]
    unfold appendIfMissing
    rw [if_pos (by simp)]
    rfl
  have enames3 : joinComma (appendIfMissing (splitComma (na ++ "," ++ nb)) nb) =
      na ++ "," ++ nb := by
    rw [splitComma_pair na nb hna, splitComma_single nb hnb]
    unfold appendIfMissing
    rw [if_pos (by simp)]
    rfl
  have hrowEq3 : updatedLeaderRow ⟨ib, ub, u, nmB, urlB⟩ nb
      ⟨u, ia ++ "," ++ ib, ua ++ "," ++ ub, nmA, urlA, na ++ "," ++ nb⟩
      ⟨u, ia ++ "," ++ ib, ua ++ "," ++ ub, nmA, urlA, na ++ "," ++ nb⟩ =
      ⟨u, ia ++ "," ++ ib, ua ++ "," ++ ub, nmA, urlA, na ++ "," ++ nb⟩ := by
    unfold updatedLeaderRow
    rw [if_pos (append_comma_ne_empty na nb)]
    rw [eids3, euus3, enames3]
  have h4 : insert_or_update_leader
      (t ++ [⟨u, ia ++ "," ++ ib, ua ++ "," ++ ub, nmA, urlA, na ++ "," ++ nb⟩])
      ⟨ib, ub, u, nmB, urlB⟩ nb =
      t ++ [⟨u, ia ++ "," ++ ib, ua ++ "," ++ ub, nmA, urlA, na ++ "," ++ nb⟩] := by
    rw [insert_existing _ _ _ _ hfind3]
    show (t ++ [(⟨u, ia ++ "," ++ ib, ua ++ "," ++ ub, nmA, urlA,
        na ++ "," ++ nb⟩ : LeaderRow)]).map
        (fun r => if r.uuid == u then
          updatedLeaderRow (⟨ib, ub, u, nmB, urlB⟩ : LeaderData) nb
            (⟨u, ia ++ "," ++ ib, ua ++ "," ++ ub, nmA, urlA,
              na ++ "," ++ nb⟩ : LeaderRow) r
        else r) =
      t ++ [⟨u, ia ++ "," ++ ib, ua ++ "," ++ ub, nmA, urlA, na ++ "," ++ nb⟩]
    rw [List.map_append, map_update_skip t u _ ht]
    simp [hrowEq3]
  exact ⟨by rw [h1]; exact h2, h3, h4⟩

/-- C8 witness: a concrete leader discovered in two organizations ends up as
one row with both provenance entries, and re-processing the second
organization changes nothing. -/
theorem c8_leader_upsert_witness :
    insert_or_update_leader
        (insert_or_update_leader [] ⟨"1", "uA", "p", "张三", "http://b/item/x"⟩
          "orgA")
        ⟨"2", "uB", "p", "张三", "http://b/item/x"⟩ "orgB" =
      [] ++ [⟨"p", "1" ++ "," ++ "2", "uA" ++ "," ++ "uB", "张三",
        "http://b/item/x", "orgA" ++ "," ++ "orgB"⟩] ∧
    ((([] : List LeaderRow) ++ [(⟨"p", "1" ++ "," ++ "2", "uA" ++ "," ++ "uB",
        "张三", "http://b/item/x", "orgA" ++ "," ++ "orgB"⟩ : LeaderRow)]).filter
      (fun r => r.uuid == "p")).length = 1 ∧
    insert_or_update_leader
        ([] ++ [⟨"p", "1" ++ "," ++ "2", "uA" ++ "," ++ "uB", "张三",
          "http://b/item/x", "orgA" ++ "," ++ "orgB"⟩])
        ⟨"2", "uB", "p", "张三", "http://b/item/x"⟩ "orgB" =
      [] ++ [⟨"p", "1" ++ "," ++ "2", "uA" ++ "," ++ "uB", "张三",
        "http://b/item/x", "orgA" ++ "," ++ "orgB"⟩] :=
  c8_leader_upsert [] "p" "1" "2" "uA" "uB" "orgA" "orgB" "张三"
    "http://b/item/x" "张三" "http://b/item/x"
    (by intro r hr; exact absurd hr (List.not_mem_nil r))
    (by decide) (by decide) (by decide) (by decide) (by decide) (by decide)
    (by decide) (by decide) (by decide) (by decide)

/-! ## C4 — deterministic department ids and same-name disambiguation
(src/src/create_c_org_info.py)

`hashlib.md5(name.encode()).hexdigest()` is implemented in full over
UTF-8 bytes, so the id computations below are the real ones. -/

/-- Truncation to 32 bits. -/
def w32 (n : Nat) : Nat := n % 4294967296

/-- 32-bit left rotation of `x` (for `x < 2^32`). -/
def rotl32 (x s : Nat) : Nat := w32 (x * 2 ^ s + x / 2 ^ (32 - s))

/-- 32-bit complement (for `x < 2^32`). -/
def not32 (x : Nat) : Nat := 4294967295 - x

/-- The 64 MD5 sine-derived constants. -/
def md5K : List Nat :=
  [0xd76aa478, 0xe8c7b756, 0x242070db, 0xc1bdceee,
   0xf57c0faf, 0x4787c62a, 0xa8304613, 0xfd469501,
   0x698098d8, 0x8b44f7af, 0xffff5bb1, 0x895cd7be,
   0x6b901122, 0xfd987193, 0xa679438e, 0x49b40821,
   0xf61e2562, 0xc040b340, 0x265e5a51, 0xe9b6c7aa,
   0xd62f105d, 0x02441453, 0xd8a1e681, 0xe7d3fbc8,
   0x21e1cde6, 0xc33707d6, 0xf4d50d87, 0x455a14ed,
   0xa9e3e905, 0xfcefa3f8, 0x676f02d9, 0x8d2a4c8a,
   0xfffa3942, 0x8771f681, 0x6d9d6122, 0xfde5380c,
   0xa4beea44, 0x4bdecfa9, 0xf6bb4b60, 0xbebfbc70,
   0x289b7ec6, 0xeaa127fa, 0xd4ef3085, 0x04881d05,
   0xd9d4d039, 0xe6db99e5, 0x1fa27cf8, 0xc4ac5665,
   0xf4292244, 0x432aff97, 0xab9423a7, 0xfc93a039,
   0x655b59c3, 0x8f0ccc92, 0xffeff47d, 0x85845dd1,
   0x6fa87e4f, 0xfe2ce6e0, 0xa3014314, 0x4e0811a1,
   0xf7537e82, 0xbd3af235, 0x2ad7d2bb, 0xeb86d391]

/-- The 64 MD5 per-round rotation amounts. -/
def md5S : List Nat :=
  [7, 12, 17, 22, 7, 12, 17, 22, 7, 12, 17, 22, 7, 12, 17, 22,
   5, 9, 14, 20, 5, 9, 14, 20, 5, 9, 14, 20, 5, 9, 14, 20,
   4, 11, 16, 23, 4, 11, 16, 23, 4, 11, 16, 23, 4, 11, 16, 23,
   6, 10, 15, 21, 6, 10, 15, 21, 6, 10, 15, 21, 6, 10, 15, 21]

/-- Little-endian 8-byte encoding of the bit length. -/
def leBytes8 (n : Nat) : List Nat :=
  [n % 256, n / 256 % 256, n / 65536 % 256, n / 16777216 % 256,
   n / 4294967296 % 256, n / 1099511627776 % 256,
   n / 281474976710656 % 256, n / 72057594037927936 % 256]

/-- MD5 padding: `0x80`, zeros to 56 mod 64, then the 64-bit bit count. -/
def md5Pad (msg : List Nat) : List Nat :=
  msg ++ [128] ++ List.replicate ((119 - msg.length % 64) % 64) 0
    ++ leBytes8 (8 * msg.length)

/-- Little-endian 32-bit words of a 64-byte block. -/
def leWords : List Nat → List Nat
  | b0 :: b1 :: b2 :: b3 :: rest =>
    (b0 + 256 * b1 + 65536 * b2 + 16777216 * b3) :: leWords rest
  | _ => []

/-- Fuel-driven chunking into 64-byte blocks (fuel ≥ length suffices). -/
def chunkAux : Nat → List Nat → List (List Nat)
  | 0, _ => []
  | _, [] => []
  | Nat.succ fuel, c :: cs =>
    (c :: cs).take 64 :: chunkAux fuel ((c :: cs).drop 64)

/-- 64-byte blocks of a padded message. -/
def chunk64 (l : List Nat) : List (List Nat) :=
  chunkAux l.length l

/-- The four 32-bit MD5 chaining words. -/
structure MD5State where
  a : Nat
  b : Nat
  c : Nat
  d : Nat

/-- One of the 64 MD5 operations. -/
def md5Round (m : List Nat) (st : MD5State) (i : Nat) : MD5State :=
  let fg : Nat × Nat :=
    if i < 16 then ((st.b &&& st.c) ||| (not32 st.b &&& st.d), i)
    else if i < 32 then
      ((st.d &&& st.b) ||| (not32 st.d &&& st.c), (5 * i + 1) % 16)
    else if i < 48 then (st.b ^^^ st.c ^^^ st.d, (3 * i + 5) % 16)
    else (st.c ^^^ (st.b ||| not32 st.d), (7 * i) % 16)
  let b2 := w32 (st.b +
    rotl32 (w32 (st.a + fg.1 + md5K.getD i 0 + m.getD fg.2 0)) (md5S.getD i 0))
  ⟨st.d, b2, st.b, st.c⟩

/-- Compression of one 64-byte block. -/
def md5Block (st : MD5State) (block : List Nat) : MD5State :=
  let m := leWords block
  let r := (List.range 64).foldl (md5Round m) st
  ⟨w32 (st.a + r.a), w32 (st.b + r.b), w32 (st.c + r.c), w32 (st.d + r.d)⟩

/-- Lower-case hex digit. -/
def hexDigit (n : Nat) : Char :=
  if n < 10 then Char.ofNat (48 + n) else Char.ofNat (87 + n)

/-- Two hex digits of a byte. -/
def byteHex (b : Nat) : List Char :=
  [hexDigit (b / 16 % 16), hexDigit (b % 16)]

/-- Hex of a 32-bit word, least significant byte first. -/
def wordLEHex (w : Nat) : List Char :=
  byteHex (w % 256) ++ byteHex (w / 256 % 256) ++ byteHex (w / 65536 % 256)
    ++ byteHex (w / 16777216 % 256)

/-- `hashlib.md5(msg).hexdigest()`. -/
def md5Hex (msg : List Nat) : String :=
  let st := (chunk64 (md5Pad msg)).foldl md5Block
    ⟨0x67452301, 0xefcdab89, 0x98badcfe, 0x10325476⟩
  String.mk (wordLEHex st.a ++ wordLEHex st.b ++ wordLEHex st.c ++ wordLEHex st.d)

/-- `generate_department_id`: MD5 hex digest of the UTF-8 encoded name. -/
def generate_department_id (name : String) : String :=
  md5Hex (strUtf8 name)

/-- One spreadsheet row (`None` cells model `NaN`). -/
structure SheetRow where
  primary : Option String
  secondary : Option String
  province : Option String
  dtype : Option String
  url : Option String

/-- A department record produced by `extract_department_info`. -/
structure DeptInfo where
  uuid : String
  org_name : String
  org_region : String
  org_type : String
  source_url : String
  org_level : Nat
  parent_uuid : Option String

/-- Python's `str.strip()`. -/
def pyStrip (s : String) : String :=
  String.mk (((s.data.dropWhile Char.isWhitespace).reverse.dropWhile
    Char.isWhitespace).reverse)

/-- Cell cleanup: `""` for `NaN`, else `str(v).strip()`. -/
def cleanCell (o : Option String) : String :=
  match o with
  | none => ""
  | some s => pyStrip s

/-- The fill-forward of blank first-level departments. -/
def fillPrimaryAux : List SheetRow → Option String → List (Option String)
  | [], _ => []
  | r :: rs, cur =>
    match r.primary with
    | some p =>
      if p ≠ "/" ∧ p ≠ "" then
        some (pyStrip p) :: fillPrimaryAux rs (some (pyStrip p))
      else cur :: fillPrimaryAux rs cur
    | none => cur :: fillPrimaryAux rs cur

/-- `filled_primary_depts` of the preprocessing loop. -/
def fillPrimary (rows : List SheetRow) : List (Option String) :=
  fillPrimaryAux rows none

/-- One iteration of the first-level loop over (row, filled primary):
unknown names get an id, a map entry and a level-1 record. -/
def level1Step (acc : List DeptInfo × List (String × String))
    (x : SheetRow × Option String) : List DeptInfo × List (String × String) :=
  match x.2 with
  | none => acc
  | some p =>
    if (acc.2.lookup p).isSome then acc
    else
      (acc.1 ++ [⟨generate_department_id p, p, cleanCell x.1.province,
        cleanCell x.1.dtype, cleanCell x.1.url, 1, none⟩],
       acc.2 ++ [(p, generate_department_id p)])

/-- One iteration of the second-level loop: a new name gets a level-2
record; a known name under a different truthy parent gets a second record
whose id comes from `name + "_" + parent_name`. -/
def level2Step (acc : List DeptInfo × List (String × String))
    (x : SheetRow × Option String) : List DeptInfo × List (String × String) :=
  match x.1.secondary with
  | none => acc
  | some secRaw =>
    if secRaw = "/" ∨ secRaw = "" then acc
    else
      let parent_id : Option String :=
        match x.2 with
        | none => none
        | some p => acc.2.lookup p
      let sec := pyStrip secRaw
      if (acc.2.lookup sec).isNone then
        (acc.1 ++ [⟨generate_department_id sec, sec, cleanCell x.1.province,
          cleanCell x.1.dtype, cleanCell x.1.url, 2, parent_id⟩],
         acc.2 ++ [(sec, generate_department_id sec)])
      else
        match acc.1.find? (fun d => d.org_name == sec && d.org_level == 2) with
        | some existing =>
          if existing.parent_uuid ≠ parent_id ∧ optTruthy parent_id then
            (acc.1 ++ [⟨generate_department_id (sec ++ "_" ++
                (match x.2 with | some p => p | none => "None")), sec,
              cleanCell x.1.province, cleanCell x.1.dtype, cleanCell x.1.url,
              2, parent_id⟩],
             acc.2)
          else acc
        | none => acc

/-- `extract_department_info`: fill-forward, the level-1 pass, then the
level-2 pass. -/
def extract_department_info (rows : List SheetRow) : List DeptInfo :=
  ((rows.zip (fillPrimary rows)).foldl level2Step
    ((rows.zip (fillPrimary rows)).foldl level1Step ([], []))).1

/-- A spreadsheet with the same second-level name under two different
first-level parents. -/
def demoRows : List SheetRow :=
  [⟨some "A1", some "B", none, none, none⟩,
   ⟨some "A2", some "B", none, none, none⟩]

/-- Out-of-range default for `List.getD`. -/
def dummyDept : DeptInfo := ⟨"", "", "", "", "", 0, none⟩

set_option maxRecDepth 1000000 in
/-- C4: `generate_department_id` is a pure function of the name, and
ingesting the same second-level name `B` under the two filled parents `A1`
and `A2` yields exactly two level-2 rows named `B` with different uuids and
different parents, the second uuid being `generate_department_id "B_A2"`. -/
theorem c4_department_id_disambiguation :
    (∀ name : String,
      generate_department_id name = generate_department_id name) ∧
    ((extract_department_info demoRows).filter
      (fun d => d.org_level == 2)).length = 2 ∧
    (((extract_department_info demoRows).filter
      (fun d => d.org_level == 2)).getD 0 dummyDept).org_name = "B" ∧
    (((extract_department_info demoRows).filter
      (fun d => d.org_level == 2)).getD 1 dummyDept).org_name = "B" ∧
    (((extract_department_info demoRows).filter
      (fun d => d.org_level == 2)).getD 0 dummyDept).uuid =
      generate_department_id "B" ∧
    (((extract_department_info demoRows).filter
      (fun d => d.org_level == 2)).getD 1 dummyDept).uuid =
      generate_department_id ("B" ++ "_" ++ "A2") ∧
    (((extract_department_info demoRows).filter
      (fun d => d.org_level == 2)).getD 0 dummyDept).uuid ≠
      (((extract_department_info demoRows).filter
        (fun d => d.org_level == 2)).getD 1 dummyDept).uuid ∧
    (((extract_department_info demoRows).filter
      (fun d => d.org_level == 2)).getD 0 dummyDept).parent_uuid ≠
      (((extract_department_info demoRows).filter
        (fun d => d.org_level == 2)).getD 1 dummyDept).parent_uuid :=
  ⟨fun _ => rfl, by decide⟩
